import Mathlib

/-!
Verification of the tucano Brazilian-identifier validation library.

The Python source is shallowly embedded: Python strings become `List Char`,
Python `int` becomes `Nat`, functions that can raise become `Option`-valued,
and the random draw of `generate` becomes an explicit list of digits passed
as a parameter.  Every definition follows the corresponding function of the
source (`src/tucano/...`) statement by statement.
-/

namespace Tucano

/-- Python `int(c)` for a single digit character: the numeric value of `c`. -/
def charVal (c : Char) : Nat := c.toNat - 48

/-- Python `str(d)` for a single decimal digit `d < 10`. -/
def digitChar (d : Nat) : Char := Char.ofNat (48 + d)

/-- Python `str(n)` on a natural number (decimal representation). -/
def natChars (n : Nat) : List Char := (Nat.repr n).data

/-- `BaseValidator._only_digits`: keep only the decimal-digit characters. -/
def onlyDigits (value : List Char) : List Char := value.filter Char.isDigit

/-! ## CPF validator (`src/tucano/validadores/cpf.py`) -/

/-- `CPFValidator.BLACKLIST`: the ten repeated-digit 11-char sequences. -/
def CPF_BLACKLIST : List (List Char) :=
  ["00000000000".data, "11111111111".data, "22222222222".data,
   "33333333333".data, "44444444444".data, "55555555555".data,
   "66666666666".data, "77777777777".data, "88888888888".data,
   "99999999999".data]

/-- The weighted total of `_calculate_first_digit`:
`sum(int(cpf_base[i]) * (10 - i) for i in range(9))`. -/
def cpfTotal1 (base : List Char) : Nat :=
  ((List.range 9).map (fun i => charVal (base.getD i '0') * (10 - i))).sum

/-- `CPFValidator._calculate_first_digit`. -/
def cpfFirstDigit (base : List Char) : Nat :=
  let remainder := cpfTotal1 base % 11
  if remainder < 2 then 0 else 11 - remainder

/-- The weighted total of `_calculate_second_digit`:
`sum(int(cpf_base[i]) * (11 - i) for i in range(10))`. -/
def cpfTotal2 (base : List Char) : Nat :=
  ((List.range 10).map (fun i => charVal (base.getD i '0') * (11 - i))).sum

/-- `CPFValidator._calculate_second_digit`. -/
def cpfSecondDigit (base : List Char) : Nat :=
  let remainder := cpfTotal2 base % 11
  if remainder < 2 then 0 else 11 - remainder

/-- `CPFValidator._validate_check_digits`. -/
def cpfValidateCheckDigits (s : List Char) : Bool :=
  if charVal (s.getD 9 '0') ≠ cpfFirstDigit (s.take 9) then false
  else charVal (s.getD 10 '0') = cpfSecondDigit (s.take 10)

/-- `CPFValidator.validate` (with `raise_error=False`; the three `raise`
branches all collapse to returning `false`). -/
def cpfValidate (value : List Char) : Bool :=
  let cleaned := onlyDigits value
  if cleaned.length ≠ 11 then false
  else if cleaned ∈ CPF_BLACKLIST then false
  else cpfValidateCheckDigits cleaned

/-- `CPFValidator.format`: `none` models the raised `InvalidCPF`. -/
def cpfFormat (value : List Char) : Option (List Char) :=
  let cleaned := onlyDigits value
  if cleaned.length ≠ 11 then none
  else some (cleaned.take 3 ++ '.' :: (cleaned.drop 3).take 3 ++
             '.' :: (cleaned.drop 6).take 3 ++ '-' :: cleaned.drop 9)

/-- `CPFValidator.generate(formatted=False)`, with the nine random draws
`[random.randint(0, 9) for _ in range(9)]` made explicit as `baseDigits`. -/
def cpfGenerate (baseDigits : List Nat) : List Char :=
  let baseStr := (baseDigits.map natChars).flatten
  let first := cpfFirstDigit baseStr
  let baseStr2 := baseStr ++ natChars first
  let second := cpfSecondDigit baseStr2
  baseStr2 ++ natChars second

/-- `CPFValidator.get_check_digits`: `none` models the raised `InvalidCPF`. -/
def cpfGetCheckDigits (value : List Char) : Option (List Char) :=
  let cleaned := onlyDigits value
  if cleaned.length < 9 then none
  else
    let base := cleaned.take 9
    let first := cpfFirstDigit base
    let second := cpfSecondDigit (base ++ natChars first)
    some (natChars first ++ natChars second)

/-! ## CNPJ validator (`src/tucano/validators/cnpj.py`) -/

/-- `CNPJValidator.BLACKLIST`: the ten repeated-digit 14-char sequences. -/
def CNPJ_BLACKLIST : List (List Char) :=
  ["00000000000000".data, "11111111111111".data, "22222222222222".data,
   "33333333333333".data, "44444444444444".data, "55555555555555".data,
   "66666666666666".data, "77777777777777".data, "88888888888888".data,
   "99999999999999".data]

/-- `CNPJValidator.PESO_PRIMEIRO`. -/
def PESO_PRIMEIRO : List Nat := [5, 4, 3, 2, 9, 8, 7, 6, 5, 4, 3, 2]

/-- `CNPJValidator.PESO_SEGUNDO`. -/
def PESO_SEGUNDO : List Nat := [6, 5, 4, 3, 2, 9, 8, 7, 6, 5, 4, 3, 2]

/-- The weighted total of `CNPJValidator._calculate_first_digit`:
`sum(int(cnpj_base[i]) * self.PESO_PRIMEIRO[i] for i in range(12))`. -/
def cnpjTotal1 (base : List Char) : Nat :=
  ((List.range 12).map (fun i => charVal (base.getD i '0') * PESO_PRIMEIRO.getD i 0)).sum

/-- `CNPJValidator._calculate_first_digit`. -/
def cnpjFirstDigit (base : List Char) : Nat :=
  let remainder := cnpjTotal1 base % 11
  if remainder < 2 then 0 else 11 - remainder

/-- The weighted total of `CNPJValidator._calculate_second_digit`:
`sum(int(cnpj_base[i]) * self.PESO_SEGUNDO[i] for i in range(13))`. -/
def cnpjTotal2 (base : List Char) : Nat :=
  ((List.range 13).map (fun i => charVal (base.getD i '0') * PESO_SEGUNDO.getD i 0)).sum

/-- `CNPJValidator._calculate_second_digit`. -/
def cnpjSecondDigit (base : List Char) : Nat :=
  let remainder := cnpjTotal2 base % 11
  if remainder < 2 then 0 else 11 - remainder

/-- `CNPJValidator._validate_check_digits`. -/
def cnpjValidateCheckDigits (s : List Char) : Bool :=
  if charVal (s.getD 12 '0') ≠ cnpjFirstDigit (s.take 12) then false
  else charVal (s.getD 13 '0') = cnpjSecondDigit (s.take 13)

/-- `CNPJValidator.validate` (with `raise_error=False`). -/
def cnpjValidate (value : List Char) : Bool :=
  let cleaned := onlyDigits value
  if cleaned.length ≠ 14 then false
  else if cleaned ∈ CNPJ_BLACKLIST then false
  else cnpjValidateCheckDigits cleaned

/-- `CNPJValidator.format`: `none` models the raised `InvalidCNPJ`. -/
def cnpjFormat (value : List Char) : Option (List Char) :=
  let cleaned := onlyDigits value
  if cleaned.length ≠ 14 then none
  else some (cleaned.take 2 ++ '.' :: (cleaned.drop 2).take 3 ++
             '.' :: (cleaned.drop 5).take 3 ++ '/' :: (cleaned.drop 8).take 4 ++
             '-' :: cleaned.drop 12)

/-- Python `int(s)` on a string of decimal-digit characters. -/
def parseNat (cs : List Char) : Nat := cs.foldl (fun acc c => acc * 10 + charVal c) 0

/-- `CNPJValidator.get_numero_filial`: validates (raising, modelled by `none`)
and then parses digits 9–12 (`int(cleaned[8:12])`). -/
def cnpjGetNumeroFilial (value : List Char) : Option Nat :=
  let cleaned := onlyDigits value
  if cnpjValidate cleaned then some (parseNat ((cleaned.drop 8).take 4)) else none

/-! ## Telefone validator (`src/tucano/validators/telefone.py`) -/

/-- `TelefoneValidator.DDDS_VALIDOS`: the fixed set of valid area codes. -/
def DDDS_VALIDOS : List (List Char) :=
  ["11".data, "12".data, "13".data, "14".data, "15".data, "16".data, "17".data,
   "18".data, "19".data,
   "21".data, "22".data, "24".data,
   "27".data, "28".data,
   "31".data, "32".data, "33".data, "34".data, "35".data, "37".data, "38".data,
   "41".data, "42".data, "43".data, "44".data, "45".data, "46".data,
   "47".data, "48".data, "49".data,
   "51".data, "53".data, "54".data, "55".data,
   "61".data,
   "62".data, "64".data,
   "63".data,
   "65".data, "66".data,
   "67".data,
   "68".data,
   "69".data,
   "71".data, "73".data, "74".data, "75".data, "77".data,
   "79".data,
   "81".data, "87".data,
   "82".data,
   "83".data,
   "84".data,
   "85".data, "88".data,
   "86".data, "89".data,
   "91".data, "93".data, "94".data,
   "92".data, "97".data,
   "95".data,
   "96".data,
   "98".data, "99".data]

/-- `TelefoneValidator.validate` (with `raise_error=False`). -/
def telValidate (value : List Char) : Bool :=
  let cleaned := onlyDigits value
  if cleaned.length ≠ 10 ∧ cleaned.length ≠ 11 then false
  else if cleaned.take 2 ∉ DDDS_VALIDOS then false
  else if cleaned.length = 11 then
    if cleaned.getD 2 '0' ≠ '9' then false else true
  else
    if cleaned.getD 2 '0' = '9' then false else true

/-- The phone kinds of `TipoTelefone`. -/
inductive TipoTel
  | fixo
  | celular
  deriving DecidableEq, Repr

/-- `TelefoneValidator.get_tipo`: `none` models the raised `InvalidTelefone`. -/
def telGetTipo (value : List Char) : Option TipoTel :=
  let cleaned := onlyDigits value
  if telValidate cleaned then
    some (if cleaned.length = 11 then .celular else .fixo)
  else none

/-! ## PIX validator (`src/tucano/validadores/pix.py`)

Python string helpers are modelled over ASCII: `str.strip()` / `str.split()`
use Python's ASCII whitespace characters (the inputs handled by the library
are ASCII identifiers, e-mail addresses and UUIDs). -/

/-- Python `str.isspace` on the ASCII whitespace characters, as used by
`str.strip()` and `str.split()`. -/
def pyIsSpace (c : Char) : Bool :=
  c = ' ' || c = '\t' || c = '\n' || c = '\r' || c = '\x0b' || c = '\x0c'

/-- Python `value.strip()`: drop leading and trailing whitespace. -/
def pyStrip (s : List Char) : List Char :=
  ((s.dropWhile pyIsSpace).reverse.dropWhile pyIsSpace).reverse

/-- Helper for `pySplit`: the accumulator holds the current (reversed) token. -/
def pySplitAux : List Char → List Char → List (List Char)
  | [], acc => if acc = [] then [] else [acc.reverse]
  | c :: cs, acc =>
    if pyIsSpace c then
      if acc = [] then pySplitAux cs [] else acc.reverse :: pySplitAux cs []
    else pySplitAux cs (c :: acc)

/-- Python `value.split()`: split on whitespace runs, dropping empty tokens. -/
def pySplit (s : List Char) : List (List Char) := pySplitAux s []

/-- Python `" ".join(tokens)`. -/
def joinSpace : List (List Char) → List Char
  | [] => []
  | [t] => t
  | t :: ts => t ++ ' ' :: joinSpace ts

/-- The newline/carriage-return/tab characters removed by `sanitizar`. -/
def isNlTab (c : Char) : Bool := c = '\n' || c = '\r' || c = '\t'

/-- The zero-width characters removed by `sanitizar`. -/
def isZw (c : Char) : Bool := c = '\u200B' || c = '\uFEFF'

/-- `PIXValidator.sanitizar`: strip, remove newlines/tabs, collapse whitespace
runs via `" ".join(value.split())`, remove zero-width/BOM characters. -/
def sanitizar (value : List Char) : List Char :=
  let s1 := pyStrip value
  let s2 := s1.filter (fun c => !(isNlTab c))
  let s3 := joinSpace (pySplit s2)
  s3.filter (fun c => !(isZw c))

/-- `PIXValidator.validate_cpf` (with `raise_error=False`): sanitize, then
delegate to the CPF validator. -/
def pixValidateCpf (value : List Char) : Bool := cpfValidate (sanitizar value)

/-- `PIXValidator.validate_cnpj` (with `raise_error=False`). -/
def pixValidateCnpj (value : List Char) : Bool := cnpjValidate (sanitizar value)

/-- `s.isPrefixOf`-style check written out: does `s` start with `p`? -/
def leadsWith : List Char → List Char → Bool
  | [], _ => true
  | _ :: _, [] => false
  | p :: ps, c :: cs => p = c && leadsWith ps cs

/-- The character class `[a-zA-Z0-9._%+-]` of `EMAIL_REGEX`'s local part. -/
def isLocalChar (c : Char) : Bool :=
  c.isAlpha || c.isDigit || c = '.' || c = '_' || c = '%' || c = '+' || c = '-'

/-- The character class `[a-zA-Z0-9.-]` of `EMAIL_REGEX`'s domain part. -/
def isDomChar (c : Char) : Bool :=
  c.isAlpha || c.isDigit || c = '.' || c = '-'

/-- Matcher for the domain part `[a-zA-Z0-9.-]+\.[a-zA-Z]{2,}$` of
`EMAIL_REGEX`.  Since the final `[a-zA-Z]{2,}` is anchored at the end, the
dot of the pattern must be the one preceding the maximal alphabetic suffix. -/
def domainMatch (b : List Char) : Bool :=
  let revB := b.reverse
  let tld := revB.takeWhile Char.isAlpha
  decide (2 ≤ tld.length) &&
    (match revB.drop tld.length with
     | '.' :: pre => !(pre.isEmpty) && pre.all isDomChar
     | _ => false)

/-- Matcher for `PIXValidator.EMAIL_REGEX`,
`^[a-zA-Z0-9._%+-]+@[a-zA-Z0-9.-]+\.[a-zA-Z]{2,}$`.  No character class of
the pattern contains `@`, so a match splits the string at its unique `@`. -/
def emailRegexMatch (v : List Char) : Bool :=
  let localPart := v.takeWhile (fun c => c ≠ '@')
  match v.dropWhile (fun c => c ≠ '@') with
  | '@' :: domain =>
    !(localPart.isEmpty) && localPart.all isLocalChar &&
      !(domain.contains '@') && domainMatch domain
  | _ => false

/-- Does the string contain two consecutive dots (Python `".." in value`)? -/
def hasConsecDots : List Char → Bool
  | '.' :: '.' :: _ => true
  | _ :: rest => hasConsecDots rest
  | [] => false

/-- `PIXValidator.validate_email` (with `raise_error=False`): the chain of
checks of the source, each `raise` collapsing to `false`. -/
def pixValidateEmail (value : List Char) : Bool :=
  let v := sanitizar value
  if v.length < 5 then false
  else if 77 < v.length then false
  else if v.contains ' ' then false
  else if !(emailRegexMatch v) then false
  else if hasConsecDots v then false
  else
    let localPart := v.takeWhile (fun c => c ≠ '@')
    if localPart.head? = some '.' || localPart.getLast? = some '.' then false
    else true

/-- Matcher for `PIXValidator.TELEFONE_REGEX`, `^\+55\d{2}9?\d{8}$`: after
`+55` come either 10 digits, or 11 digits whose third digit is `9`. -/
def telRegexMatch (v : List Char) : Bool :=
  leadsWith "+55".data v &&
    (let rest := v.drop 3
     rest.all Char.isDigit &&
       (rest.length = 10 || (rest.length = 11 && rest.getD 2 '0' = '9')))

/-- `PIXValidator.validate_telefone` (with `raise_error=False`):
`ddd = value[3:5]`, `numero = value[5:]`, then the national phone check. -/
def pixValidateTelefone (value : List Char) : Bool :=
  let v := sanitizar value
  if !(leadsWith "+55".data v) then false
  else if !(telRegexMatch v) then false
  else telValidate ((v.drop 3).take 2 ++ v.drop 5)

/-- Hexadecimal digit, as accepted by Python `int(hex, 16)`. -/
def isHexChar (c : Char) : Bool :=
  c.isDigit || ('a' ≤ c && c ≤ 'f') || ('A' ≤ c && c ≤ 'F')

/-- Python `s.replace("urn:", "")`: remove every (left-to-right,
non-overlapping) occurrence of `urn:`. -/
def removeUrn : List Char → List Char
  | 'u' :: 'r' :: 'n' :: ':' :: rest => removeUrn rest
  | c :: cs => c :: removeUrn cs
  | [] => []

/-- Python `s.replace("uuid:", "")`: remove every (left-to-right,
non-overlapping) occurrence of `uuid:`. -/
def removeUuidColon : List Char → List Char
  | 'u' :: 'u' :: 'i' :: 'd' :: ':' :: rest => removeUuidColon rest
  | c :: cs => c :: removeUuidColon cs
  | [] => []

/-- Python `s.strip("{}")`: drop leading and trailing brace characters. -/
def stripBraces (s : List Char) : List Char :=
  let isBrace : Char → Bool := fun c => c = '{' || c = '}'
  ((s.dropWhile isBrace).reverse.dropWhile isBrace).reverse

/-- The hex-extraction phase of Python's `uuid.UUID(value)` constructor:
remove `urn:` and `uuid:`, strip braces, remove hyphens, and require exactly
32 hexadecimal digits (the exotic sign/underscore/space tolerance of
`int(hex, 16)` is not modelled).  Returns the 32 hex characters. -/
def uuidHex32 (value : List Char) : Option (List Char) :=
  let h1 := removeUrn value
  let h2 := removeUuidColon h1
  let h3 := stripBraces h2
  let h4 := h3.filter (fun c => c ≠ '-')
  if h4.length = 32 ∧ h4.all isHexChar then some h4 else none

/-- `str(uuid.UUID(value)).lower()`: the canonical hyphenated lowercase form
of a parsed UUID. -/
def uuidCanonical (value : List Char) : Option (List Char) :=
  (uuidHex32 value).map (fun h =>
    let l := h.map Char.toLower
    l.take 8 ++ '-' :: (l.drop 8).take 4 ++ '-' :: (l.drop 12).take 4 ++
      '-' :: (l.drop 16).take 4 ++ '-' :: l.drop 20)

/-- `PIXValidator.validate_aleatoria` (with `raise_error=False`).  Note that
`uuid.UUID(value, version=4)` overwrites the version bits, so the subsequent
`parsed_uuid.version != 4` test never fails: any parseable UUID hex string is
accepted. -/
def pixValidateAleatoria (value : List Char) : Bool :=
  (uuidHex32 (sanitizar value)).isSome

/-- The PIX key kinds of `TipoChavePIX`. -/
inductive TipoChave
  | cpf
  | cnpj
  | email
  | telefone
  | aleatoria
  deriving DecidableEq, Repr

/-- `PIXValidator.detectar_tipo`: sanitize, then try the five validators in
the fixed source order. -/
def detectarTipo (value : List Char) : Option TipoChave :=
  let v := sanitizar value
  if pixValidateCpf v then some .cpf
  else if pixValidateCnpj v then some .cnpj
  else if pixValidateEmail v then some .email
  else if pixValidateTelefone v then some .telefone
  else if pixValidateAleatoria v then some .aleatoria
  else none

/-- `PIXValidator.validate` (with `raise_error=False`): sanitize, detect,
`true` exactly when a type was detected. -/
def pixValidate (value : List Char) : Bool :=
  (detectarTipo (sanitizar value)).isSome

/-- `PIXValidator.clean`: sanitize, detect the type, and return the
type-specific cleaned form; when no type is detected the source falls
through to `return self._only_digits(value)`.  `none` models a raised
exception (only reachable through the `uuid.UUID` call). -/
def pixClean (value : List Char) : Option (List Char) :=
  let v := sanitizar value
  match detectarTipo v with
  | some .cpf => some (onlyDigits v)
  | some .cnpj => some (onlyDigits v)
  | some .telefone => some (v.filter (fun c => c ≠ '+' ∧ c ≠ ' '))
  | some .email => some (v.map Char.toLower)
  | some .aleatoria => uuidCanonical v
  | none => some (onlyDigits v)

/-! ## Specification-side definitions (from the claims' wording) -/

/-- The separator pattern `XXX.XXX.XXX-XX`: the cleaned digits with
separators inserted at positions 3, 6 and 9. -/
def sepPattern (c : List Char) : List Char :=
  c.take 3 ++ ['.'] ++ (c.drop 3).take 3 ++ ['.'] ++ (c.drop 6).take 3 ++ ['-'] ++ c.drop 9

/-- The phone-validity rule exactly as the claim states it: cleaned length
10 or 11, the first two digits in the area-code set, third digit `9` iff
the length is 11. -/
def telSpecValid (x : List Char) : Bool :=
  let c := onlyDigits x
  (decide (c.length = 10) || decide (c.length = 11)) &&
  decide (c.take 2 ∈ DDDS_VALIDOS) &&
  ((decide (c.length = 11) && decide (c.getD 2 '0' = '9')) ||
   (decide (c.length = 10) && decide (c.getD 2 '0' ≠ '9')))

/-- The claim's check-digit rule, stated over an explicit weight vector:
weighted sum of the digits modulo 11; remainder 0 or 1 gives digit 0,
otherwise 11 minus the remainder. -/
def specCheckDigit (weights digits : List Nat) : Nat :=
  let r := (((weights.zip digits).map (fun p => p.1 * p.2)).sum) % 11
  if r = 0 ∨ r = 1 then 0 else 11 - r

/-- The ordered list of (tag, sub-validator) pairs, in the claim's fixed
priority order. -/
def pixValidators : List (TipoChave × (List Char → Bool)) :=
  [(.cpf, pixValidateCpf), (.cnpj, pixValidateCnpj), (.email, pixValidateEmail),
   (.telefone, pixValidateTelefone), (.aleatoria, pixValidateAleatoria)]

/-- The claim's description of detection: sanitize, then try the five
validators in priority order, returning the tag of the first success. -/
def detectSpec (v : List Char) : Option TipoChave :=
  (pixValidators.find? (fun p => p.2 v)).map Prod.fst

/-- The type-specific cleaned forms exactly as the claim lists them:
ID digits, PIX phone with `+` and spaces stripped, lowercased email,
canonical lowercase UUID. -/
def cleanSpecForm : TipoChave → List Char → Option (List Char)
  | .cpf, v => some (onlyDigits v)
  | .cnpj, v => some (onlyDigits v)
  | .telefone, v => some (v.filter (fun c => c ≠ '+' ∧ c ≠ ' '))
  | .email, v => some (v.map Char.toLower)
  | .aleatoria, v => uuidCanonical v

end Tucano

namespace Tucano

example : cpfGetCheckDigits "123456789".data = some ['0', '9'] := by decide
example : cpfValidate "123.456.789-09".data = true := by decide
example : cpfValidate "111.111.111-11".data = false := by decide
example : cpfGenerate [0,0,0,0,0,0,0,0,0] = "00000000000".data := by decide
example : cpfValidate (cpfGenerate [0,0,0,0,0,0,0,0,0]) = false := by decide
example : cpfValidate (cpfGenerate [1,2,3,4,5,6,7,8,9]) = true := by decide
example : cnpjValidate "11.222.333/0001-81".data = true := by decide
example : cnpjValidate "12345678000004".data = true := by decide
example : cnpjGetNumeroFilial "12345678000004".data = some 0 := by decide
example : cnpjGetNumeroFilial "11.222.333/0001-81".data = some 1 := by decide
example : telValidate "(11) 98765-4321".data = true := by decide
example : telValidate "(00) 98765-4321".data = false := by decide
example : telGetTipo "1134567890".data = some .fixo := by decide
example : detectarTipo "123.456.789-09".data = some .cpf := by decide
example : detectarTipo "11.222.333/0001-81".data = some .cnpj := by decide
example : detectarTipo "usuario@example.com".data = some .email := by decide
example : detectarTipo "+5511987654321".data = some .telefone := by decide
example : detectarTipo "a1b2c3d4-e5f6-4789-a1b2-c3d4e5f6a7b8".data = some .aleatoria := by
  decide
example : detectarTipo "abc".data = none := by decide
example : detectarTipo "x".data = none := by decide
example : pixClean "abc".data = some [] := by decide
example : pixClean "  123.456.789-09  ".data = some "12345678909".data := by decide
example : pixClean "A1B2C3D4-E5F6-4789-A1B2-C3D4E5F6A7B8".data
    = some "a1b2c3d4-e5f6-4789-a1b2-c3d4e5f6a7b8".data := by decide
example : pixValidate "usuario@example.com".data = true := by decide
example : pixValidate "invalid".data = false := by decide

/-! ## Basic lemmas about the embedding -/

theorem onlyDigits_idem (v : List Char) : onlyDigits (onlyDigits v) = onlyDigits v := by
  simp [onlyDigits, List.filter_filter]

theorem isDigit_of_mem_onlyDigits {c : Char} {v : List Char} (h : c ∈ onlyDigits v) :
    c.isDigit = true := (List.mem_filter.mp h).2

theorem charVal_le_nine {c : Char} (h : c.isDigit = true) : charVal c ≤ 9 := by
  simp only [Char.isDigit, Bool.and_eq_true, decide_eq_true_eq] at h
  obtain ⟨h1, h2⟩ := h
  have n1 : 48 ≤ c.val.toNat := UInt32.le_toNat_of_le (by decide) h1
  have n2 : c.val.toNat ≤ 57 := UInt32.toNat_le_of_le (by decide) h2
  simp only [charVal, Char.toNat]
  omega

theorem charVal_digitChar {d : Nat} (h : d < 10) : charVal (digitChar d) = d := by
  interval_cases d <;> decide

theorem isDigit_digitChar {d : Nat} (h : d < 10) : (digitChar d).isDigit = true := by
  interval_cases d <;> decide

theorem natChars_of_lt_ten {d : Nat} (h : d < 10) : natChars d = [digitChar d] := by
  interval_cases d <;> decide

theorem cpfFirstDigit_le_nine (b : List Char) : cpfFirstDigit b ≤ 9 := by
  have : cpfTotal1 b % 11 < 11 := Nat.mod_lt _ (by omega)
  show (if cpfTotal1 b % 11 < 2 then 0 else 11 - cpfTotal1 b % 11) ≤ 9
  split <;> omega

theorem cpfSecondDigit_le_nine (b : List Char) : cpfSecondDigit b ≤ 9 := by
  have : cpfTotal2 b % 11 < 11 := Nat.mod_lt _ (by omega)
  show (if cpfTotal2 b % 11 < 2 then 0 else 11 - cpfTotal2 b % 11) ≤ 9
  split <;> omega

theorem cpfValidate_length {v : List Char} (h : cpfValidate v = true) :
    (onlyDigits v).length = 11 := by
  unfold cpfValidate at h
  dsimp only at h
  split at h
  · exact absurd h (by simp)
  · next hcond => omega

theorem cnpjValidate_length {v : List Char} (h : cnpjValidate v = true) :
    (onlyDigits v).length = 14 := by
  unfold cnpjValidate at h
  dsimp only at h
  split at h
  · exact absurd h (by simp)
  · next hcond => omega

theorem parseNat_lt {cs : List Char} (h : ∀ c ∈ cs, c.isDigit = true) :
    parseNat cs < 10 ^ cs.length := by
  suffices H : ∀ (cs : List Char) (acc : Nat), (∀ c ∈ cs, c.isDigit = true) →
      cs.foldl (fun acc c => acc * 10 + charVal c) acc < (acc + 1) * 10 ^ cs.length by
    have := H cs 0 h
    simpa [parseNat] using this
  intro cs
  induction cs with
  | nil =>
    intro acc _
    simp only [List.foldl_nil, List.length_nil, pow_zero, mul_one]
    exact Nat.lt_succ_self acc
  | cons c cs ih =>
    intro acc hall
    simp only [List.foldl_cons, List.length_cons]
    have hc : charVal c ≤ 9 := charVal_le_nine (hall c (by simp))
    have := ih (acc * 10 + charVal c) (fun x hx => hall x (by simp [hx]))
    calc cs.foldl (fun acc c => acc * 10 + charVal c) (acc * 10 + charVal c)
        < (acc * 10 + charVal c + 1) * 10 ^ cs.length := this
      _ ≤ ((acc + 1) * 10) * 10 ^ cs.length := by
          apply Nat.mul_le_mul_right
          omega
      _ = (acc + 1) * 10 ^ (cs.length + 1) := by ring

theorem flatten_natChars_of_digits {ds : List Nat} (hd : ∀ d ∈ ds, d < 10) :
    (ds.map natChars).flatten = ds.map digitChar := by
  induction ds with
  | nil => rfl
  | cons d ds ih =>
    simp only [List.map_cons, List.flatten_cons]
    rw [natChars_of_lt_ten (hd d (by simp)), ih (fun x hx => hd x (by simp [hx]))]
    rfl

/-! ## Claim C1 -/

/-- C1 (code bug evaluated at the failing input): the draw of nine zero
digits makes `cpf.generate` produce exactly the blacklisted value
`"00000000000"`, which `cpf.validate` rejects — contradicting the claim
(and the source's own docstring and tests) that every generated value
validates and never coincides with a blacklist entry. -/
theorem c1_generate_allzero_draw_invalid :
    cpfGenerate [0, 0, 0, 0, 0, 0, 0, 0, 0] = "00000000000".data ∧
    cpfGenerate [0, 0, 0, 0, 0, 0, 0, 0, 0] ∈ CPF_BLACKLIST ∧
    cpfValidate (cpfGenerate [0, 0, 0, 0, 0, 0, 0, 0, 0]) = false :=
  ⟨by decide, by decide, by decide⟩

/-! ## Claim C3 -/

/-- C3: every repeated-digit 11-char sequence is rejected by `cpf.validate`
and every repeated-digit 14-char sequence is rejected by `cnpj.validate`,
even though they have the correct lengths; concretely
`validate("123.456.789-09") = true` and `validate("111.111.111-11") = false`. -/
theorem c3_repeated_digit_sequences_rejected (d : Nat) (hd : d < 10) :
    cpfValidate (List.replicate 11 (digitChar d)) = false ∧
    cnpjValidate (List.replicate 14 (digitChar d)) = false ∧
    (List.replicate 11 (digitChar d)).length = 11 ∧
    (List.replicate 14 (digitChar d)).length = 14 ∧
    cpfValidate "123.456.789-09".data = true ∧
    cpfValidate "111.111.111-11".data = false := by
  interval_cases d <;>
    exact ⟨by decide, by decide, by decide, by decide, by decide, by decide⟩

theorem c3_witness :
    3 < 10 ∧
    (cpfValidate (List.replicate 11 (digitChar 3)) = false ∧
     cnpjValidate (List.replicate 14 (digitChar 3)) = false ∧
     (List.replicate 11 (digitChar 3)).length = 11 ∧
     (List.replicate 14 (digitChar 3)).length = 14 ∧
     cpfValidate "123.456.789-09".data = true ∧
     cpfValidate "111.111.111-11".data = false) :=
  ⟨by decide, c3_repeated_digit_sequences_rejected 3 (by decide)⟩

/-! ## Claim C5 -/

/-- C5 is false as stated: on the base `"111111111"` the weighted-sum
remainder is 10 (so not 0 or 1), yet the computed check digit is
`11 - 10 = 1`, which does not lie between 2 and 9. -/
theorem c5_counterexample_remainder_ten :
    cpfTotal1 "111111111".data % 11 = 10 ∧
    cpfFirstDigit "111111111".data = 1 ∧
    ¬(2 ≤ cpfFirstDigit "111111111".data ∧ cpfFirstDigit "111111111".data ≤ 9) :=
  ⟨by decide, by decide, by decide⟩

theorem mod11_check_digit (t : Nat) (h : 2 ≤ t % 11) :
    (if t % 11 < 2 then 0 else 11 - t % 11) = 11 - t % 11 ∧
    1 ≤ (if t % 11 < 2 then 0 else 11 - t % 11) ∧
    (if t % 11 < 2 then 0 else 11 - t % 11) ≤ 9 := by
  have : t % 11 < 11 := Nat.mod_lt _ (by omega)
  rw [if_neg (by omega)]
  omega

/-- C5 (amended): in all four check-digit computations, whenever the
weighted-sum remainder mod 11 is not 0 or 1, the check digit is
`11 - remainder` and lies between 1 and 9 (the remainder ranges over 2–10,
and remainder 10 yields digit 1). -/
theorem c5_check_digit_range (b1 b2 b3 b4 : List Char)
    (h1 : 2 ≤ cpfTotal1 b1 % 11) (h2 : 2 ≤ cpfTotal2 b2 % 11)
    (h3 : 2 ≤ cnpjTotal1 b3 % 11) (h4 : 2 ≤ cnpjTotal2 b4 % 11) :
    (cpfFirstDigit b1 = 11 - cpfTotal1 b1 % 11 ∧
      1 ≤ cpfFirstDigit b1 ∧ cpfFirstDigit b1 ≤ 9) ∧
    (cpfSecondDigit b2 = 11 - cpfTotal2 b2 % 11 ∧
      1 ≤ cpfSecondDigit b2 ∧ cpfSecondDigit b2 ≤ 9) ∧
    (cnpjFirstDigit b3 = 11 - cnpjTotal1 b3 % 11 ∧
      1 ≤ cnpjFirstDigit b3 ∧ cnpjFirstDigit b3 ≤ 9) ∧
    (cnpjSecondDigit b4 = 11 - cnpjTotal2 b4 % 11 ∧
      1 ≤ cnpjSecondDigit b4 ∧ cnpjSecondDigit b4 ≤ 9) := by
  exact ⟨mod11_check_digit (cpfTotal1 b1) h1, mod11_check_digit (cpfTotal2 b2) h2,
         mod11_check_digit (cnpjTotal1 b3) h3, mod11_check_digit (cnpjTotal2 b4) h4⟩

theorem c5_witness :
    2 ≤ cpfTotal1 "111111111".data % 11 ∧
    2 ≤ cpfTotal2 "1111111111".data % 11 ∧
    2 ≤ cnpjTotal1 "111111111111".data % 11 ∧
    2 ≤ cnpjTotal2 "1111111111111".data % 11 ∧
    ((cpfFirstDigit "111111111".data = 11 - cpfTotal1 "111111111".data % 11 ∧
        1 ≤ cpfFirstDigit "111111111".data ∧ cpfFirstDigit "111111111".data ≤ 9) ∧
     (cpfSecondDigit "1111111111".data = 11 - cpfTotal2 "1111111111".data % 11 ∧
        1 ≤ cpfSecondDigit "1111111111".data ∧ cpfSecondDigit "1111111111".data ≤ 9) ∧
     (cnpjFirstDigit "111111111111".data = 11 - cnpjTotal1 "111111111111".data % 11 ∧
        1 ≤ cnpjFirstDigit "111111111111".data ∧ cnpjFirstDigit "111111111111".data ≤ 9) ∧
     (cnpjSecondDigit "1111111111111".data = 11 - cnpjTotal2 "1111111111111".data % 11 ∧
        1 ≤ cnpjSecondDigit "1111111111111".data ∧
        cnpjSecondDigit "1111111111111".data ≤ 9)) :=
  ⟨by decide, by decide, by decide, by decide,
   c5_check_digit_range _ _ _ _ (by decide) (by decide) (by decide) (by decide)⟩

/-! ## Claim C10 -/

theorem cpfGenerate_eq {ds : List Nat} (hd : ∀ d ∈ ds, d < 10) :
    cpfGenerate ds =
      (ds.map digitChar ++ [digitChar (cpfFirstDigit (ds.map digitChar))]) ++
        [digitChar (cpfSecondDigit
          (ds.map digitChar ++ [digitChar (cpfFirstDigit (ds.map digitChar))]))] := by
  have h1 : cpfFirstDigit (ds.map digitChar) < 10 := by
    have := cpfFirstDigit_le_nine (ds.map digitChar)
    omega
  have h2 : cpfSecondDigit
      (ds.map digitChar ++ [digitChar (cpfFirstDigit (ds.map digitChar))]) < 10 := by
    have := cpfSecondDigit_le_nine
      (ds.map digitChar ++ [digitChar (cpfFirstDigit (ds.map digitChar))])
    omega
  unfold cpfGenerate
  dsimp only
  rw [flatten_natChars_of_digits hd, natChars_of_lt_ten h1]
  rw [natChars_of_lt_ten h2]

/-- C10: the check-digit computations always return an integer in [0, 9],
and `cpf.generate(formatted=False)` on any draw of nine decimal digits
returns a string of exactly 11 characters, all decimal digits. -/
theorem c10_generate_well_formed (b1 b2 : List Char) (ds : List Nat)
    (h9 : ds.length = 9) (hd : ∀ d ∈ ds, d < 10) :
    cpfFirstDigit b1 ≤ 9 ∧ cpfSecondDigit b2 ≤ 9 ∧
    (cpfGenerate ds).length = 11 ∧ (cpfGenerate ds).all Char.isDigit = true := by
  refine ⟨cpfFirstDigit_le_nine b1, cpfSecondDigit_le_nine b2, ?_, ?_⟩
  · rw [cpfGenerate_eq hd]
    simp [h9]
  · rw [cpfGenerate_eq hd]
    have hfd : cpfFirstDigit (ds.map digitChar) < 10 := by
      have := cpfFirstDigit_le_nine (ds.map digitChar); omega
    have hsd : cpfSecondDigit
        (ds.map digitChar ++ [digitChar (cpfFirstDigit (ds.map digitChar))]) < 10 := by
      have := cpfSecondDigit_le_nine
        (ds.map digitChar ++ [digitChar (cpfFirstDigit (ds.map digitChar))])
      omega
    simp only [List.all_eq_true, List.mem_append, List.mem_singleton, List.mem_map]
    intro c hc
    obtain (⟨d, hdm, hdc⟩ | hc1) | hc2 := hc
    · rw [← hdc]; exact isDigit_digitChar (hd d hdm)
    · rw [hc1]; exact isDigit_digitChar hfd
    · rw [hc2]; exact isDigit_digitChar hsd

theorem c10_witness :
    ([1, 2, 3, 4, 5, 6, 7, 8, 9] : List Nat).length = 9 ∧
    (∀ d ∈ ([1, 2, 3, 4, 5, 6, 7, 8, 9] : List Nat), d < 10) ∧
    (cpfFirstDigit [] ≤ 9 ∧ cpfSecondDigit [] ≤ 9 ∧
     (cpfGenerate [1, 2, 3, 4, 5, 6, 7, 8, 9]).length = 11 ∧
     (cpfGenerate [1, 2, 3, 4, 5, 6, 7, 8, 9]).all Char.isDigit = true) :=
  ⟨by decide, by decide, c10_generate_well_formed [] [] _ (by decide) (by decide)⟩

/-! ## Claim C4 -/

/-- C4 is false as stated: the company-ID validator accepts
`"12345678000004"`, whose branch field is `"0000"`, so
`get_numero_filial` returns 0, which is not in [1, 9999]. -/
theorem c4_counterexample_branch_zero :
    cnpjValidate "12345678000004".data = true ∧
    cnpjGetNumeroFilial "12345678000004".data = some 0 ∧ ¬(1 ≤ (0 : Nat)) :=
  ⟨by decide, by decide, by decide⟩

/-- C4 (amended): on every accepted company ID, the branch field (digits
9–12 of the cleaned value) encodes an integer in [0, 9999] — the validator
never inspects the branch field, so 0 is possible — and
`get_numero_filial` returns it; `"0001"` still encodes headquarters (1). -/
theorem c4_branch_in_range (v : List Char) (h : cnpjValidate v = true) :
    (∃ n, cnpjGetNumeroFilial v = some n ∧ n ≤ 9999) ∧
    cnpjGetNumeroFilial "11.222.333/0001-81".data = some 1 := by
  have hlen := cnpjValidate_length h
  have hval : cnpjValidate (onlyDigits v) = true := by
    unfold cnpjValidate at h ⊢
    rw [onlyDigits_idem]
    exact h
  refine ⟨⟨parseNat (((onlyDigits v).drop 8).take 4), ?_, ?_⟩, by decide⟩
  · unfold cnpjGetNumeroFilial
    dsimp only
    rw [if_pos hval]
  · have hdig : ∀ c ∈ ((onlyDigits v).drop 8).take 4, c.isDigit = true := by
      intro c hc
      exact isDigit_of_mem_onlyDigits (List.mem_of_mem_drop (List.mem_of_mem_take hc))
    have hl : (((onlyDigits v).drop 8).take 4).length = 4 := by
      simp [List.length_take, List.length_drop, hlen]
    have hb := parseNat_lt hdig
    rw [hl] at hb
    omega

theorem c4_witness :
    cnpjValidate "11222333000181".data = true ∧
    ((∃ n, cnpjGetNumeroFilial "11222333000181".data = some n ∧ n ≤ 9999) ∧
     cnpjGetNumeroFilial "11.222.333/0001-81".data = some 1) :=
  ⟨by decide, c4_branch_in_range _ (by decide)⟩

/-! ## Claim C9 -/

/-- C9 is false as stated: `"11111111111"` is rejected by `cpf.validate`
(blacklisted), yet `cpf.format` happily returns `"111.111.111-11"` — the
formatter only checks the digit count, not validity. -/
theorem c9_counterexample_format_blacklisted :
    cpfValidate "11111111111".data = false ∧
    cpfFormat "11111111111".data = some "111.111.111-11".data :=
  ⟨by decide, by decide⟩

/-- C9 (amended): `cpf.format` raises exactly when the cleaned input does
not have 11 digits; on every input with 11 cleaned digits — validity is not
checked, so values `cpf.validate` rejects are formatted too — it returns
the cleaned digits with separators at positions 3, 6 and 9; in particular
it does so on every accepted input. -/
theorem c9_format_characterization (x y z : List Char)
    (hy : (onlyDigits y).length = 11) (hz : cpfValidate z = true) :
    (cpfFormat x).isSome = decide ((onlyDigits x).length = 11) ∧
    cpfFormat y = some (sepPattern (onlyDigits y)) ∧
    cpfFormat z = some (sepPattern (onlyDigits z)) := by
  have hshape : ∀ w : List Char, (onlyDigits w).length = 11 →
      cpfFormat w = some (sepPattern (onlyDigits w)) := by
    intro w hw
    unfold cpfFormat
    dsimp only
    rw [if_neg (by omega)]
    simp [sepPattern]
  refine ⟨?_, hshape y hy, hshape z (cpfValidate_length hz)⟩
  unfold cpfFormat
  dsimp only
  by_cases hl : (onlyDigits x).length = 11
  · rw [if_neg (by omega)]
    simp [hl]
  · rw [if_pos hl]
    simp [hl]

theorem c9_witness :
    (onlyDigits "11111111111".data).length = 11 ∧
    cpfValidate "11111111111".data = false ∧
    cpfValidate "123.456.789-09".data = true ∧
    ((cpfFormat "12 34".data).isSome = decide ((onlyDigits "12 34".data).length = 11) ∧
     cpfFormat "11111111111".data = some (sepPattern (onlyDigits "11111111111".data)) ∧
     cpfFormat "123.456.789-09".data = some (sepPattern (onlyDigits "123.456.789-09".data))) :=
  ⟨by decide, by decide, by decide, c9_format_characterization _ _ _ (by decide) (by decide)⟩

/-! ## Claim C8 -/

/-- C8: `telefone.validate` accepts exactly the strings described by the
claim's rule, and the three concrete scenarios hold. -/
theorem c8_phone_validate_characterization (x : List Char) :
    telValidate x = telSpecValid x ∧
    telValidate "(11) 98765-4321".data = true ∧
    telValidate "(00) 98765-4321".data = false ∧
    telGetTipo "1134567890".data = some .fixo := by
  refine ⟨?_, by decide, by decide, by decide⟩
  unfold telValidate telSpecValid
  dsimp only
  by_cases h10 : (onlyDigits x).length = 10 <;>
    by_cases h11 : (onlyDigits x).length = 11 <;>
    by_cases hm : (onlyDigits x).take 2 ∈ DDDS_VALIDOS <;>
    by_cases h9 : (onlyDigits x).getD 2 '0' = '9' <;>
    simp_all

/-! ## Claim C2 -/

theorem range_total_eq (ds : List Nat) :
    ∀ f : Nat → Nat, (∀ d ∈ ds, d < 10) →
    ((List.range ds.length).map
        (fun i => charVal ((ds.map digitChar).getD i '0') * f i)).sum =
      ((((List.range ds.length).map f).zip ds).map (fun p => p.1 * p.2)).sum := by
  induction ds with
  | nil => simp
  | cons d ds ih =>
    intro f hd
    rw [List.length_cons, List.range_succ_eq_map]
    simp only [List.map_cons, List.map_map, List.getD_cons_zero, List.getD_cons_succ,
      List.zip_cons_cons, List.sum_cons, Function.comp_def, Nat.succ_eq_add_one]
    rw [charVal_digitChar (hd d (by simp))]
    rw [ih (fun i => f (i + 1)) (fun x hx => hd x (by simp [hx]))]
    ring_nf

/-- C2: the first check digit follows the claimed weighted-sum rule with
weights [10,…,2] over the 9 base digits, the second follows the same rule
with weights [11,…,2] over the 10 digits (base plus first check digit),
and `get_check_digits("123456789")` returns `"09"`. -/
theorem c2_check_digit_formula (ds es : List Nat)
    (h9 : ds.length = 9) (hd : ∀ d ∈ ds, d < 10)
    (h10 : es.length = 10) (he : ∀ d ∈ es, d < 10) :
    cpfFirstDigit (ds.map digitChar) =
      specCheckDigit [10, 9, 8, 7, 6, 5, 4, 3, 2] ds ∧
    cpfSecondDigit (es.map digitChar) =
      specCheckDigit [11, 10, 9, 8, 7, 6, 5, 4, 3, 2] es ∧
    cpfGetCheckDigits "123456789".data = some ['0', '9'] := by
  refine ⟨?_, ?_, by decide⟩
  · have h := range_total_eq ds (fun i => 10 - i) hd
    rw [h9] at h
    rw [show (List.range 9).map (fun i => 10 - i) = [10, 9, 8, 7, 6, 5, 4, 3, 2] from
      by decide] at h
    unfold cpfFirstDigit cpfTotal1 specCheckDigit
    dsimp only
    rw [h]
    split_ifs <;> omega
  · have h := range_total_eq es (fun i => 11 - i) he
    rw [h10] at h
    rw [show (List.range 10).map (fun i => 11 - i) = [11, 10, 9, 8, 7, 6, 5, 4, 3, 2] from
      by decide] at h
    unfold cpfSecondDigit cpfTotal2 specCheckDigit
    dsimp only
    rw [h]
    split_ifs <;> omega

theorem c2_witness :
    ([1, 2, 3, 4, 5, 6, 7, 8, 9] : List Nat).length = 9 ∧
    (∀ d ∈ ([1, 2, 3, 4, 5, 6, 7, 8, 9] : List Nat), d < 10) ∧
    ([1, 2, 3, 4, 5, 6, 7, 8, 9, 0] : List Nat).length = 10 ∧
    (∀ d ∈ ([1, 2, 3, 4, 5, 6, 7, 8, 9, 0] : List Nat), d < 10) ∧
    (cpfFirstDigit (([1, 2, 3, 4, 5, 6, 7, 8, 9] : List Nat).map digitChar) =
        specCheckDigit [10, 9, 8, 7, 6, 5, 4, 3, 2] [1, 2, 3, 4, 5, 6, 7, 8, 9] ∧
      cpfSecondDigit (([1, 2, 3, 4, 5, 6, 7, 8, 9, 0] : List Nat).map digitChar) =
        specCheckDigit [11, 10, 9, 8, 7, 6, 5, 4, 3, 2] [1, 2, 3, 4, 5, 6, 7, 8, 9, 0] ∧
      cpfGetCheckDigits "123456789".data = some ['0', '9']) :=
  ⟨by decide, by decide, by decide, by decide,
   c2_check_digit_formula _ _ (by decide) (by decide) (by decide) (by decide)⟩

/-! ## Sanitization lemmas

`sanitizar` is not idempotent on arbitrary input (removing a zero-width
character can create a leading or doubled space), but it is idempotent from
the second application on: the lemmas below establish
`sanitizar ∘ sanitizar ∘ sanitizar = sanitizar ∘ sanitizar`, which is what
relates `detectar_tipo` (which sanitizes once before calling the
sub-validators, which each sanitize again) to `validate` (which sanitizes
yet once more). -/

theorem pySplitAux_tokens (s : List Char) :
    ∀ acc, (∀ c ∈ acc, pyIsSpace c = false) →
    ∀ t ∈ pySplitAux s acc, t ≠ [] ∧ ∀ c ∈ t, pyIsSpace c = false := by
  induction s with
  | nil =>
    intro acc hacc t ht
    unfold pySplitAux at ht
    split at ht
    · simp at ht
    · next hne =>
      simp only [List.mem_singleton] at ht
      subst ht
      refine ⟨by simpa using hne, fun c hc => hacc c (by simpa using hc)⟩
  | cons c cs ih =>
    intro acc hacc t ht
    unfold pySplitAux at ht
    split at ht
    · split at ht
      · exact ih [] (by simp) t ht
      · next hne =>
        rcases List.mem_cons.mp ht with rfl | ht'
        · refine ⟨by simpa using hne, fun x hx => hacc x (by simpa using hx)⟩
        · exact ih [] (by simp) t ht'
    · next hcsp =>
      refine ih (c :: acc) ?_ t ht
      intro x hx
      rcases List.mem_cons.mp hx with rfl | hx'
      · simpa using hcsp
      · exact hacc x hx'

theorem mem_of_mem_pySplitAux (s : List Char) :
    ∀ acc t c, t ∈ pySplitAux s acc → c ∈ t → c ∈ s ∨ c ∈ acc := by
  induction s with
  | nil =>
    intro acc t c ht hc
    unfold pySplitAux at ht
    split at ht
    · simp at ht
    · simp only [List.mem_singleton] at ht
      subst ht
      exact Or.inr (by simpa using hc)
  | cons a cs ih =>
    intro acc t c ht hc
    unfold pySplitAux at ht
    split at ht
    · split at ht
      · rcases ih [] t c ht hc with h | h
        · exact Or.inl (by simp [h])
        · simp at h
      · rcases List.mem_cons.mp ht with rfl | ht'
        · exact Or.inr (by simpa using hc)
        · rcases ih [] t c ht' hc with h | h
          · exact Or.inl (by simp [h])
          · simp at h
    · rcases ih (a :: acc) t c ht hc with h | h
      · exact Or.inl (by simp [h])
      · rcases List.mem_cons.mp h with rfl | h'
        · exact Or.inl (by simp)
        · exact Or.inr h'

theorem pySplitAux_token_append (t : List Char) :
    (∀ c ∈ t, pyIsSpace c = false) →
    ∀ s acc, pySplitAux (t ++ s) acc = pySplitAux s (t.reverse ++ acc) := by
  induction t with
  | nil => intro _ s acc; simp
  | cons c t ih =>
    intro hts s acc
    have hc : pyIsSpace c = false := hts c (by simp)
    show pySplitAux (c :: (t ++ s)) acc = _
    simp only [pySplitAux, hc, Bool.false_eq_true, if_false]
    rw [ih (fun x hx => hts x (by simp [hx])) s (c :: acc)]
    simp

theorem joinSpace_cons (t : List Char) (ts : List (List Char)) (h : ts ≠ []) :
    joinSpace (t :: ts) = t ++ ' ' :: joinSpace ts := by
  cases ts with
  | nil => exact absurd rfl h
  | cons t2 ts2 => rfl

theorem mem_joinSpace {c : Char} : ∀ {ts : List (List Char)},
    c ∈ joinSpace ts → c = ' ' ∨ ∃ t ∈ ts, c ∈ t := by
  intro ts
  induction ts with
  | nil => intro h; simp [joinSpace] at h
  | cons t ts ih =>
    intro h
    cases ts with
    | nil =>
      refine Or.inr ⟨t, by simp, ?_⟩
      simpa [joinSpace] using h
    | cons t2 ts2 =>
      rw [joinSpace_cons t (t2 :: ts2) (by simp)] at h
      rcases List.mem_append.mp h with h' | h'
      · exact Or.inr ⟨t, by simp, h'⟩
      · rcases List.mem_cons.mp h' with rfl | h''
        · exact Or.inl rfl
        · rcases ih h'' with h3 | ⟨u, hu, hcu⟩
          · exact Or.inl h3
          · exact Or.inr ⟨u, by simp [hu], hcu⟩

theorem joinSpace_ne_nil {ts : List (List Char)} (hne : ts ≠ [])
    (h : ∀ t ∈ ts, t ≠ []) : joinSpace ts ≠ [] := by
  cases ts with
  | nil => exact absurd rfl hne
  | cons t ts =>
    cases ts with
    | nil =>
      show joinSpace [t] ≠ []
      simpa [joinSpace] using h t (by simp)
    | cons t2 ts2 =>
      rw [joinSpace_cons t (t2 :: ts2) (by simp)]
      simp

theorem joinSpace_head_not_space {ts : List (List Char)}
    (h : ∀ t ∈ ts, t ≠ [] ∧ ∀ c ∈ t, pyIsSpace c = false) :
    ∀ c, (joinSpace ts).head? = some c → pyIsSpace c = false := by
  intro c hc
  cases ts with
  | nil => simp [joinSpace] at hc
  | cons t ts =>
    obtain ⟨hne, hsp⟩ := h t (by simp)
    have hh : (joinSpace (t :: ts)).head? = t.head? := by
      cases ts with
      | nil => rfl
      | cons t2 ts2 =>
        rw [joinSpace_cons t (t2 :: ts2) (by simp)]
        cases t with
        | nil => exact absurd rfl hne
        | cons a t' => rfl
    rw [hh] at hc
    exact hsp c (List.mem_of_mem_head? hc)

theorem joinSpace_getLast_not_space : ∀ {ts : List (List Char)},
    (∀ t ∈ ts, t ≠ [] ∧ ∀ c ∈ t, pyIsSpace c = false) →
    ∀ c, (joinSpace ts).getLast? = some c → pyIsSpace c = false := by
  intro ts
  induction ts with
  | nil => intro _ c hc; simp [joinSpace] at hc
  | cons t ts ih =>
    intro h c hc
    cases ts with
    | nil =>
      obtain ⟨hne, hsp⟩ := h t (by simp)
      exact hsp c (List.mem_of_getLast?_eq_some (by simpa [joinSpace] using hc))
    | cons t2 ts2 =>
      rw [joinSpace_cons t (t2 :: ts2) (by simp)] at hc
      rw [List.getLast?_append] at hc
      have hjn : joinSpace (t2 :: ts2) ≠ [] :=
        joinSpace_ne_nil (by simp) (fun u hu => (h u (by simp [hu])).1)
      have : (' ' :: joinSpace (t2 :: ts2)).getLast? = (joinSpace (t2 :: ts2)).getLast? := by
        cases hj : joinSpace (t2 :: ts2) with
        | nil => exact absurd hj hjn
        | cons b J => simp
      rw [this] at hc
      cases hl : (joinSpace (t2 :: ts2)).getLast? with
      | none => exact absurd (List.getLast?_eq_none_iff.mp hl) hjn
      | some b =>
        rw [hl, Option.or_some] at hc
        injection hc with hbc
        rw [← hbc]
        exact ih (fun u hu => h u (by simp [hu])) b hl

theorem pyStrip_eq_self {w : List Char}
    (hh : ∀ c, w.head? = some c → pyIsSpace c = false)
    (hl : ∀ c, w.getLast? = some c → pyIsSpace c = false) :
    pyStrip w = w := by
  unfold pyStrip
  have h1 : w.dropWhile pyIsSpace = w := by
    cases w with
    | nil => rfl
    | cons a l =>
      rw [List.dropWhile_cons, if_neg (by simp [hh a rfl])]
  rw [h1]
  have h2 : w.reverse.dropWhile pyIsSpace = w.reverse := by
    cases hr : w.reverse with
    | nil => rfl
    | cons b r =>
      have hb : w.getLast? = some b := by
        rw [← List.head?_reverse, hr]
        rfl
      rw [List.dropWhile_cons, if_neg (by simp [hl b hb])]
  rw [h2, List.reverse_reverse]

theorem pySplit_joinSpace : ∀ ts : List (List Char),
    (∀ t ∈ ts, t ≠ [] ∧ ∀ c ∈ t, pyIsSpace c = false) →
    pySplit (joinSpace ts) = ts := by
  intro ts
  induction ts with
  | nil => intro _; rfl
  | cons t ts ih =>
    intro h
    obtain ⟨hne, hsp⟩ := h t (by simp)
    cases ts with
    | nil =>
      show pySplitAux (joinSpace [t]) [] = [t]
      rw [show joinSpace [t] = t from rfl]
      have hstep := pySplitAux_token_append t hsp [] []
      rw [show t ++ ([] : List Char) = t from by simp] at hstep
      rw [hstep]
      unfold pySplitAux
      rw [if_neg (by simp [hne])]
      simp
    | cons t2 ts2 =>
      rw [joinSpace_cons t (t2 :: ts2) (by simp)]
      show pySplitAux (t ++ ' ' :: joinSpace (t2 :: ts2)) [] = t :: t2 :: ts2
      rw [pySplitAux_token_append t hsp _ []]
      simp only [pySplitAux]
      rw [if_pos (by decide)]
      rw [if_neg (by simp [hne])]
      simp only [List.append_nil, List.reverse_reverse]
      rw [show pySplitAux (joinSpace (t2 :: ts2)) [] =
            pySplit (joinSpace (t2 :: ts2)) from rfl]
      rw [ih (fun u hu => h u (by simp [hu]))]

theorem nltab_space {c : Char} (h : isNlTab c = true) : pyIsSpace c = true := by
  simp only [isNlTab, Bool.or_eq_true, decide_eq_true_eq] at h
  simp only [pyIsSpace, Bool.or_eq_true, decide_eq_true_eq]
  tauto

theorem mem_pyStrip {c : Char} {s : List Char} (h : c ∈ pyStrip s) : c ∈ s := by
  unfold pyStrip at h
  have h1 := List.mem_reverse.mp h
  have h2 := List.dropWhile_subset _ h1
  have h3 := List.mem_reverse.mp h2
  exact List.dropWhile_subset _ h3

theorem sanitizar_eq_join_of_zwfree {y : List Char} (hy : ∀ c ∈ y, isZw c = false) :
    sanitizar y = joinSpace (pySplit ((pyStrip y).filter (fun c => !(isNlTab c)))) := by
  unfold sanitizar
  dsimp only
  apply List.filter_eq_self.mpr
  intro c hc
  rcases mem_joinSpace hc with rfl | ⟨t, ht, hct⟩
  · decide
  · rcases mem_of_mem_pySplitAux _ [] t c ht hct with hcs | hcontra
    · have hcy : c ∈ y := mem_pyStrip (List.mem_of_mem_filter hcs)
      simp [hy c hcy]
    · simp at hcontra

theorem sanitizar_joinSpace_fixed {ts : List (List Char)}
    (h : ∀ t ∈ ts, t ≠ [] ∧ ∀ c ∈ t, pyIsSpace c = false)
    (hzw : ∀ c ∈ joinSpace ts, isZw c = false) :
    sanitizar (joinSpace ts) = joinSpace ts := by
  unfold sanitizar
  dsimp only
  rw [pyStrip_eq_self (joinSpace_head_not_space h) (joinSpace_getLast_not_space h)]
  have hf1 : (joinSpace ts).filter (fun c => !(isNlTab c)) = joinSpace ts := by
    apply List.filter_eq_self.mpr
    intro c hc
    rcases mem_joinSpace hc with rfl | ⟨t, ht, hct⟩
    · decide
    · have hns := (h t ht).2 c hct
      by_cases hn : isNlTab c = true
      · exact absurd (nltab_space hn) (by simp [hns])
      · simp only [Bool.not_eq_true] at hn
        simp [hn]
  rw [hf1, pySplit_joinSpace ts h]
  exact List.filter_eq_self.mpr (fun c hc => by simp [hzw c hc])

theorem sanitizar_zwfree (x : List Char) : ∀ c ∈ sanitizar x, isZw c = false := by
  intro c hc
  unfold sanitizar at hc
  dsimp only at hc
  simpa using (List.mem_filter.mp hc).2

theorem sanitizar_sanitizar_of_zwfree {y : List Char}
    (hy : ∀ c ∈ y, isZw c = false) :
    sanitizar (sanitizar y) = sanitizar y := by
  rw [sanitizar_eq_join_of_zwfree hy]
  apply sanitizar_joinSpace_fixed
  · exact pySplitAux_tokens _ [] (by simp)
  · intro c hc
    rcases mem_joinSpace hc with rfl | ⟨t, ht, hct⟩
    · decide
    · rcases mem_of_mem_pySplitAux _ [] t c ht hct with hcs | hcontra
      · exact hy c (mem_pyStrip (List.mem_of_mem_filter hcs))
      · simp at hcontra

theorem sanitizar_three (x : List Char) :
    sanitizar (sanitizar (sanitizar x)) = sanitizar (sanitizar x) :=
  sanitizar_sanitizar_of_zwfree (sanitizar_zwfree x)

theorem pixValidateCpf_sanitized (w : List Char) :
    pixValidateCpf (sanitizar (sanitizar w)) = pixValidateCpf (sanitizar w) := by
  unfold pixValidateCpf
  rw [sanitizar_three w]

theorem pixValidateCnpj_sanitized (w : List Char) :
    pixValidateCnpj (sanitizar (sanitizar w)) = pixValidateCnpj (sanitizar w) := by
  unfold pixValidateCnpj
  rw [sanitizar_three w]

theorem pixValidateEmail_sanitized (w : List Char) :
    pixValidateEmail (sanitizar (sanitizar w)) = pixValidateEmail (sanitizar w) := by
  unfold pixValidateEmail
  rw [sanitizar_three w]

theorem pixValidateTelefone_sanitized (w : List Char) :
    pixValidateTelefone (sanitizar (sanitizar w)) = pixValidateTelefone (sanitizar w) := by
  unfold pixValidateTelefone
  rw [sanitizar_three w]

theorem pixValidateAleatoria_sanitized (w : List Char) :
    pixValidateAleatoria (sanitizar (sanitizar w)) = pixValidateAleatoria (sanitizar w) := by
  unfold pixValidateAleatoria
  rw [sanitizar_three w]

/-! ## Claim C6 -/

/-- C6: `detectar_tipo` sanitizes and returns the tag of the first of the
five validators (in the fixed order individual-ID, company-ID, email,
PIX-phone, random-key) that accepts; when none is detected `pix.validate`
returns false; concretely `detectar_tipo("123.456.789-09") = "cpf"`. -/
theorem c6_detect_priority_order (v w : List Char) (hw : detectarTipo w = none) :
    detectarTipo v = detectSpec (sanitizar v) ∧
    pixValidate w = false ∧
    detectarTipo "123.456.789-09".data = some TipoChave.cpf := by
  refine ⟨?_, ?_, by decide⟩
  · cases h1 : pixValidateCpf (sanitizar v) <;>
      cases h2 : pixValidateCnpj (sanitizar v) <;>
      cases h3 : pixValidateEmail (sanitizar v) <;>
      cases h4 : pixValidateTelefone (sanitizar v) <;>
      cases h5 : pixValidateAleatoria (sanitizar v) <;>
      simp [detectarTipo, detectSpec, pixValidators, List.find?, h1, h2, h3, h4, h5]
  · unfold pixValidate
    unfold detectarTipo at hw ⊢
    dsimp only at hw ⊢
    rw [pixValidateCpf_sanitized, pixValidateCnpj_sanitized, pixValidateEmail_sanitized,
      pixValidateTelefone_sanitized, pixValidateAleatoria_sanitized]
    rw [hw]
    rfl

theorem c6_witness :
    detectarTipo "x".data = none ∧
    (detectarTipo "usuario@example.com".data
        = detectSpec (sanitizar "usuario@example.com".data) ∧
     pixValidate "x".data = false ∧
     detectarTipo "123.456.789-09".data = some TipoChave.cpf) :=
  ⟨by decide, c6_detect_priority_order _ _ (by decide)⟩

/-! ## Claim C7 -/

/-- C7 is false as stated: on `"abc"` no key type is detected, yet
`pix.clean` does not fail — it falls through to plain digit extraction and
returns the (empty) string of digits. -/
theorem c7_counterexample_clean_no_failure :
    detectarTipo "abc".data = none ∧ pixClean "abc".data = some [] :=
  ⟨by decide, by decide⟩

/-- C7 (amended): when no type is detected `pix.clean` does not fail — it
returns the plain digit extraction of the sanitized input; when a type is
detected it returns the type-specific cleaned form. -/
theorem c7_clean_by_detected_type (v w : List Char) (t : TipoChave)
    (hv : detectarTipo (sanitizar v) = none)
    (hw : detectarTipo (sanitizar w) = some t) :
    pixClean v = some (onlyDigits (sanitizar v)) ∧
    pixClean w = cleanSpecForm t (sanitizar w) := by
  constructor
  · unfold pixClean
    dsimp only
    rw [hv]
  · unfold pixClean
    dsimp only
    rw [hw]
    cases t <;> rfl

theorem c7_witness :
    detectarTipo (sanitizar "abc".data) = none ∧
    detectarTipo (sanitizar "123.456.789-09".data) = some TipoChave.cpf ∧
    (pixClean "abc".data = some (onlyDigits (sanitizar "abc".data)) ∧
     pixClean "123.456.789-09".data
        = cleanSpecForm TipoChave.cpf (sanitizar "123.456.789-09".data)) :=
  ⟨by decide, by decide, c7_clean_by_detected_type _ _ _ (by decide) (by decide)⟩

end Tucano
